import Mathlib

/-!
Shallow embedding of `src/papers_please.py`: a rule-based admission engine.
Entrant submissions (document-kind → text block) are parsed into a `Papers`
record (document-kind → field map); an `Inspector` holds mutable rule state
(wanted-criminal name, required-documents categories, allowed-nations
whitelist) updated by bulletin directives, and judges entrants through an
ordered rule pipeline.

Python dictionaries are modelled as association lists preserving insertion
order (insert overwrites in place, new keys append at the end); Python sets
are modelled as lists compared by membership; Python exceptions
(`ValueError` from unparseable input, `KeyError` from missing dict keys)
are modelled with `Except InspectError`.  Regular-expression searches from
the source are modelled by hand-rolled scanners realizing the
leftmost-match backtracking semantics of each concrete pattern; `\w` is
modelled as alphanumeric-or-underscore and `\s` as the ASCII whitespace
characters, which agrees with Python on the ASCII inputs this program
processes.
-/

namespace PapersPlease

/-- Model of Python `\w` (ASCII range): alphanumeric or underscore. -/
def isWordChar (c : Char) : Bool := c.isAlphanum || c == '_'

/-- Model of Python `\s` (ASCII range). -/
def isSpaceChar (c : Char) : Bool :=
  c == ' ' || c == '\t' || c == '\n' || c == '\r' || c == '\x0b' || c == '\x0c'

/-- Boolean test that `pat` is a prefix of `l`. -/
def startsL : List Char → List Char → Bool
  | [], _ => true
  | _ :: _, [] => false
  | p :: ps, c :: cs => p == c && startsL ps cs

/-- Boolean test that `suf` is a suffix of `l`. -/
def endsL (suf l : List Char) : Bool := startsL suf.reverse l.reverse

/-- Model of Python substring containment (`pat in s`). -/
def containsSub (pat : List Char) : List Char → Bool
  | [] => pat.isEmpty
  | c :: rest => startsL pat (c :: rest) || containsSub pat rest

/-- Model of Python `str.split(sep)` for the two-character separators used in
the source (`": "` and `", "`): split on non-overlapping occurrences of
`[a, b]`, scanning left to right. -/
def split2 (a b : Char) : List Char → List (List Char)
  | [] => [[]]
  | [c] => [[c]]
  | x :: y :: rest =>
    if x == a && y == b then [] :: split2 a b rest
    else
      match split2 a b (y :: rest) with
      | [] => [[x]]
      | h :: t => (x :: h) :: t

/-- Model of Python `str.splitlines` for `'\n'`-separated text: segments
between newlines, with a final unterminated empty segment dropped
(`''.splitlines() = []`, `'a\n'.splitlines() = ['a']`). -/
def pySplitlinesGo (cur : List Char) : List Char → List (List Char)
  | [] => if cur.isEmpty then [] else [cur]
  | c :: rest => if c == '\n' then cur :: pySplitlinesGo [] rest else pySplitlinesGo (cur ++ [c]) rest

/-- Split a string into lines as Python `str.splitlines` does. -/
def pySplitlines (s : String) : List String :=
  (pySplitlinesGo [] s.data).map String.mk

/-- Lexicographic string comparison `l ≤ r` on code points, as Python compares
`str` values with `<=`. -/
def strLe : List Char → List Char → Bool
  | [], _ => true
  | _ :: _, [] => false
  | a :: as, b :: bs => if a == b then strLe as bs else decide (a < b)

/-- First-occurrence lookup in an association list (models Python dict
lookup; dicts built by this program keep keys unique). -/
def dlookup {κ α : Type} [DecidableEq κ] (k : κ) : List (κ × α) → Option α
  | [] => none
  | (k', v) :: rest => if k' = k then some v else dlookup k rest

/-- Key-membership test for an association list (models Python `k in d`). -/
def hasKey {κ α : Type} [DecidableEq κ] (k : κ) (d : List (κ × α)) : Bool :=
  (dlookup k d).isSome

/-- Model of Python dict assignment `d[k] = v`: overwrite in place if the key
exists, else append at the end (insertion order). -/
def pyInsert {κ α : Type} [DecidableEq κ] (k : κ) (v : α) : List (κ × α) → List (κ × α)
  | [] => [(k, v)]
  | (k', v') :: rest => if k' = k then (k, v) :: rest else (k', v') :: pyInsert k v rest

/-- Model of Python dict `pop`: remove the entry with the given key. -/
def pyRemove {κ α : Type} [DecidableEq κ] (k : κ) : List (κ × α) → List (κ × α)
  | [] => []
  | (k', v') :: rest => if k' = k then rest else (k', v') :: pyRemove k rest

/-- Model of Python set union `a | b` on list-modelled sets (membership is
what matters; duplicates are irrelevant to every judgement made on them). -/
def listUnion (a b : List String) : List String := a ++ b.filter (fun x => !(a.contains x))

/-- Model of Python set difference `a - b` on list-modelled sets. -/
def listDiff (a b : List String) : List String := a.filter (fun x => !(b.contains x))

/-- Errors surfaced by the engine: a document line without the `": "`
separator (`ValueError` from `Papers.parse_info`), a missing dict key
(`KeyError` from field lookups), and `Rule.parse_error`'s `ValueError`
for a directive that matched a rule's coarse pattern but failed its
detailed extraction. -/
inductive InspectError where
  | badLine (line : String)
  | keyError (key : String)
  | parseError (ruleName : String) (rule : String)
deriving DecidableEq, Repr

/-! Constants from the source (`COUNTRIES`, `ARSTOTZKA`, and the string
constants on `Papers`).  `COUNTRIES` ends with Python `None`, the sentinel
"no nation" entry, hence the `Option String` element type. -/

def ARSTOTZKA : String := "Arstotzka"

def COUNTRIES : List (Option String) :=
  [some "Arstotzka", some "Antegria", some "Impor", some "Kolechia",
   some "Obristan", some "Republia", some "United Federation", none]

def PASSPORT : String := "passport"
def ACCESS_PERMIT : String := "access_permit"
def IDCARD : String := "ID_card"
def VACCINATION : String := "vaccination"
def VACCINATION_CERT : String := "certificate_of_vaccination"
def VACCINES : String := "VACCINES"
def DIPLOMAT : String := "diplomatic_authorization"
def ASYLUM : String := "grant_of_asylum"
def ACCESS : String := "ACCESS"
def NAME : String := "NAME"
def BIRTHDAY : String := "DOB"
def IDNUM : String := "ID#"
def EXPIRATION : String := "EXP"
def NATION : String := "NATION"
def PURPOSE : String := "PURPOSE"
def WORK : String := "WORK"

/-- A parsed document: field name → field value (Python dict). -/
abbrev FieldMap := List (String × String)

/-- A `Papers` record: document kind → parsed field map, in insertion order
(Python `Papers(dict)`). -/
abbrev Papers := List (String × FieldMap)

/-- Model of `Papers.parse_info` applied line by line: each line must split
as `key: value` under `split(': ')` (exactly two parts), else `ValueError`. -/
def parse_info_lines (acc : FieldMap) : List String → Except InspectError FieldMap
  | [] => .ok acc
  | line :: rest =>
    match split2 ':' ' ' line.data with
    | [k, v] => parse_info_lines (pyInsert (String.mk k) (String.mk v) acc) rest
    | _ => .error (.badLine line)

/-- `Papers.parse_info`: parse one document's text block into a field map. -/
def parse_info (infostr : String) : Except InspectError FieldMap :=
  parse_info_lines [] (pySplitlines infostr)

/-- `Papers.__init__`: parse every document of the entrant submission. -/
def mkPapers_go (acc : Papers) : List (String × String) → Except InspectError Papers
  | [] => .ok acc
  | (doc, text) :: rest =>
    match parse_info text with
    | .ok fields => mkPapers_go (pyInsert doc fields acc) rest
    | .error e => .error e

/-- Build a `Papers` record from a raw entrant submission. -/
def mkPapers (entrant : List (String × String)) : Except InspectError Papers :=
  mkPapers_go [] entrant

/-- `Papers._lookup_attr`: first document (in record order) carrying the
field, its value. -/
def lookup_attr (attr : String) : Papers → Option String
  | [] => none
  | (_, paper) :: rest =>
    match dlookup attr paper with
    | some v => some v
    | none => lookup_attr attr rest

/-- `Papers.name`: first `NAME` field value across the documents. -/
def papers_name (p : Papers) : Option String := lookup_attr NAME p

/-- `Papers.nation`: first `NATION` field value; when absent, an ID card
defaults the nationality to the home nation. -/
def papers_nation (p : Papers) : Option String :=
  match lookup_attr NATION p with
  | some n => some n
  | none => if hasKey IDCARD p then some ARSTOTZKA else none

/-- `Papers.worker`: the access permit's `PURPOSE` equals `WORK`; the raw
dict lookup `self[ACCESS_PERMIT][PURPOSE]` raises `KeyError` when the
permit has no `PURPOSE` field. -/
def papers_worker (p : Papers) : Except InspectError Bool :=
  match dlookup ACCESS_PERMIT p with
  | some perm =>
    match dlookup PURPOSE perm with
    | some v => .ok (v == WORK)
    | none => .error (.keyError PURPOSE)
  | none => .ok false

/-- `Papers.certificate_of_vaccination`: `None` without a certificate, else
the set of vaccines from the certificate's `VACCINES` field (a `KeyError`
when that field is missing). -/
def certificate_of_vaccination (p : Papers) : Except InspectError (Option (List String)) :=
  match dlookup VACCINATION_CERT p with
  | some cert =>
    match dlookup VACCINES cert with
    | some vs => .ok (some ((split2 ',' ' ' vs.data).map String.mk))
    | none => .error (.keyError VACCINES)
  | none => .ok none

/-- `Papers.diplomatic_countries`: the `ACCESS` list of a diplomatic
authorization, else the empty set. -/
def diplomatic_countries (p : Papers) : List String :=
  match dlookup DIPLOMAT p with
  | some paper =>
    match dlookup ACCESS paper with
    | some a => (split2 ',' ' ' a.data).map String.mk
    | none => []
  | none => []

/-- Suffix test `document.endswith('vaccination')` from the source. -/
def endsWithVacc (d : String) : Bool := endsL "vaccination".data d.data

/-- The literal `_vaccination` that the regex `(\w+)_vaccination` requires
after its captured group. -/
def vaccSuffix : List Char := "_vaccination".data

/-- Largest index `k` of `l` at which `_vaccination` starts (the greedy
backtracking target of `(\w+)_vaccination`): `some k` when `l.drop k`
begins with `_vaccination`, preferring the largest such `k`. -/
def maxVaccSplit : List Char → Option Nat
  | [] => none
  | c :: rest =>
    match maxVaccSplit rest with
    | some k => some (k + 1)
    | none => if startsL vaccSuffix (c :: rest) then some 0 else none

/-- The group captured by `(\w+)_vaccination` inside one maximal run of
word characters: the largest split point with a nonempty group before it
(greedy `\w+` with a fixed leftmost start). -/
def groupOfRun (run : List Char) : Option (List Char) :=
  match maxVaccSplit run with
  | some k => if k = 0 then none else some (run.take k)
  | none => none

/-- Model of `re.search(r'(\w+)_vaccination', document)`, returning the
captured group.  A match lies inside one maximal run of word characters
(every character of `_vaccination` is a word character); re.search takes
the leftmost run admitting a split with a nonempty group, and the greedy
`\w+` takes the largest split inside it.  Fuel is the string length, enough
for the run-by-run scan. -/
def searchVaccFuel : Nat → List Char → Option (List Char)
  | 0, _ => none
  | _, [] => none
  | fuel + 1, c :: rest =>
    if isWordChar c then
      match groupOfRun (c :: rest.takeWhile isWordChar) with
      | some g => some g
      | none => searchVaccFuel fuel (rest.dropWhile isWordChar)
    else searchVaccFuel fuel rest

/-- Entry point of the `(\w+)_vaccination` search. -/
def searchVacc (l : List Char) : Option (List Char) := searchVaccFuel l.length l

/-- Python `str.replace('_', ' ')` applied to the captured disease group. -/
def underscoresToSpaces (l : List Char) : List Char :=
  l.map (fun c => if c == '_' then ' ' else c)

/-- `Papers.document_present`: literal key membership, except that a
vaccination-suffixed requirement with a certificate present is decided by
membership of the extracted disease in the vaccine set; when the regex
does not match, or no certificate is presented, the code falls through to
the literal membership test `document in self`. -/
def document_present (p : Papers) (document : String) : Except InspectError Bool :=
  if document ≠ VACCINATION_CERT ∧ endsWithVacc document then
    match certificate_of_vaccination p with
    | .error e => .error e
    | .ok (some vaccines) =>
      match searchVacc document.data with
      | some grp => .ok (vaccines.contains (String.mk (underscoresToSpaces grp)))
      | none => .ok (hasKey document p)
    | .ok none => .ok (hasKey document p)
  else .ok (hasKey document p)

/-- `Papers.iterate_documents`: yield the required set with every
vaccination-suffixed entry deferred to the end, preceded (once) by an
injected `certificate_of_vaccination`; realizes the generator's `defer`
list. -/
def iterate_documents (required : List String) : List String :=
  let vacc := required.filter (fun d => endsWithVacc d)
  (required.filter (fun d => !(endsWithVacc d))) ++
    (if vacc.isEmpty then [] else VACCINATION_CERT :: vacc)

/-- `Rule.document_name_for_display`: vaccination-suffixed names display as
`vaccination`; others have underscores replaced by spaces. -/
def document_name_for_display (name : String) : String :=
  if name ≠ VACCINATION_CERT ∧ endsWithVacc name then VACCINATION
  else String.mk (underscoresToSpaces name.data)

/-- The `Judgement` namedtuple: `(detain, deny, reason)` with all-false
default `Allow`. -/
structure Judgement where
  detain : Bool
  deny : Bool
  reason : String
deriving DecidableEq, Repr

/-- The default judgement `Allow = Judgement()`. -/
def Allow : Judgement := ⟨false, false, ""⟩

/-! ### WantedCriminals rule -/

/-- `WantedCriminals.REASON`. -/
def WANTED_REASON : String := "Entrant is a wanted criminal"

/-- `WantedCriminals.matches`: the line starts with `Wanted`. -/
def wanted_matches (rule : String) : Bool := startsL "Wanted".data rule.data

/-- Model of `re.search(r':\s+(\w+)\s+(\w+)', rule)`: scan for the leftmost
`:` followed by whitespace, a word run, whitespace, and a word run; `\s`
and `\w` are disjoint, so the greedy quantifiers are deterministic maximal
munch; on failure the search resumes after the colon. -/
def searchWanted : List Char → Option (String × String)
  | [] => none
  | c :: rest =>
    if c == ':' then
      if (rest.takeWhile isSpaceChar).isEmpty then searchWanted rest
      else
        let r1 := rest.dropWhile isSpaceChar
        let w1 := r1.takeWhile isWordChar
        if w1.isEmpty then searchWanted rest
        else
          let r2 := r1.dropWhile isWordChar
          if (r2.takeWhile isSpaceChar).isEmpty then searchWanted rest
          else
            let w2 := (r2.dropWhile isSpaceChar).takeWhile isWordChar
            if w2.isEmpty then searchWanted rest
            else some (String.mk w1, String.mk w2)
    else searchWanted rest

/-- `WantedCriminals.parse`: extract first and last name and store
`"last, first"`; `parse_error` when the regex fails. -/
def wanted_parse (rule : String) : Except InspectError String :=
  match searchWanted rule.data with
  | some (first, last) => .ok (last ++ ", " ++ first)
  | none => .error (.parseError "WantedCriminals" rule)

/-- `WantedCriminals.judge`: detain when the record's derived name equals
the stored name (Python `papers.name == self.name`; a record without a
name never equals the stored string). -/
def wanted_judge (name : String) (p : Papers) : Judgement :=
  if papers_name p == some name then ⟨true, false, WANTED_REASON⟩ else Allow

/-! ### ValidDocuments rule -/

/-- `ValidDocuments.MISMATCH_FIELDS` in its dict order. -/
def MISMATCH_FIELDS : List (String × String) :=
  [(BIRTHDAY, "date of birth"), (NATION, "nationality"),
   (IDNUM, "ID number"), (NAME, "name")]

/-- `ValidDocuments.EARLIEST_INVALID_DATE`. -/
def EARLIEST_INVALID_DATE : String := "1982.11.22"

/-- One key of `check_mismatches`: scan the documents in order comparing
each value carried under `key` with the previously seen one (`sofar`);
`true` when two consecutive carriers disagree. -/
def scan_key (key : String) (sofar : Option String) : Papers → Bool
  | [] => false
  | (_, paper) :: rest =>
    match dlookup key paper with
    | some v =>
      match sofar with
      | some w => if w ≠ v then true else scan_key key (some v) rest
      | none => scan_key key (some v) rest
    | none => scan_key key sofar rest

/-- `ValidDocuments.check_mismatches`: the display name of the first key (in
`MISMATCH_FIELDS` order) carried with conflicting values. -/
def check_mismatches_go (p : Papers) : List (String × String) → Option String
  | [] => none
  | (key, field) :: rest =>
    if scan_key key none p then some field else check_mismatches_go p rest

/-- Top-level `check_mismatches`. -/
def check_mismatches (p : Papers) : Option String := check_mismatches_go p MISMATCH_FIELDS

/-- `ValidDocuments.check_expiration_dates`: the first document (in record
order) whose `EXP` field compares `<=` the fixed cutoff, as a display
name. -/
def check_expiration_dates : Papers → Option String
  | [] => none
  | (document, paper) :: rest =>
    match dlookup EXPIRATION paper with
    | some e =>
      if strLe e.data EARLIEST_INVALID_DATE.data then some (document_name_for_display document)
      else check_expiration_dates rest
    | none => check_expiration_dates rest

/-- `ValidDocuments.judge`: detain on a field mismatch, deny on an expired
document, deny on a diplomatic authorization that does not cover the home
nation, else allow. -/
def valid_judge (p : Papers) : Judgement :=
  match check_mismatches p with
  | some field => ⟨true, false, field ++ " mismatch"⟩
  | none =>
    match check_expiration_dates p with
    | some doc => ⟨false, true, doc ++ " expired"⟩
    | none =>
      if hasKey DIPLOMAT p then
        if (diplomatic_countries p).contains ARSTOTZKA then Allow
        else ⟨false, true, "invalid diplomatic authorization"⟩
      else Allow

/-! ### RequiredDocuments rule -/

/-- Category names `Entrants`, `Foreigners`, `Workers` from the source. -/
def ENTRANTS : String := "Entrants"

/-- Synthetic category expanded to every nation but the home one. -/
def FOREIGNERS : String := "Foreigners"

/-- Category whose requirements are unioned in for working entrants. -/
def WORKERS : String := "Workers"

/-- The required-documents state: `defaultdict(set)` keyed by category.
Keys are `Option String` because `COUNTRIES` ends with the Python `None`
sentinel, which `papers.nation` can also be. -/
abbrev ReqDict := List (Option String × List String)

/-- A parsed required-documents directive: per-category document sets and
the `no longer` polarity. -/
structure ReqParsed where
  categories : ReqDict
  nolonger : Bool
deriving DecidableEq, Repr

/-- `defaultdict` read `d[key]`: the stored set, or the empty set freshly
inserted (appended) for a missing key — the read mutates the dict. -/
def ddGet (cats : ReqDict) (key : Option String) : List String × ReqDict :=
  match dlookup key cats with
  | some v => (v, cats)
  | none => ([], cats ++ [(key, [])])

/-- `op(self.categories[category], other_set)` through the defaultdict:
combine the stored set (default empty) with `x` in place. -/
def ddApply (op : List String → List String → List String)
    (cats : ReqDict) (key : Option String) (x : List String) : ReqDict :=
  pyInsert key (op (match dlookup key cats with | some v => v | none => []) x) cats

/-- `RequiredDocuments.matches`: the substring `require` occurs in the line. -/
def required_matches (rule : String) : Bool := containsSub "require".data rule.data

/-- The `(no\s+longer)?` optional group of the required-documents regex:
literal `no`, whitespace, literal `longer`.  When the group matches but the
rest of the pattern fails, skipping the group cannot succeed either (the
position then starts with `no`, not `require`), so committing to the match
is faithful. -/
def tryNoLonger (t : List Char) : Option (List Char) :=
  if startsL "no".data t then
    let r1 := t.drop 2
    if (r1.takeWhile isSpaceChar).isEmpty then none
    else
      let r2 := r1.dropWhile isSpaceChar
      if startsL "longer".data r2 then some (r2.drop 6) else none
  else none

/-- The part of `r'(.+?)\s+(no\s+longer)?\s*require\s+(.+)'` after the lazy
group: `\s+`, the optional `no longer` group, `\s*`, literal `require`,
`\s+`, and the greedy `(.+)` (a maximal nonempty run of non-newline
characters).  All quantified classes are disjoint from the literals that
follow them, so maximal munch realizes the backtracking semantics. -/
def reqTail (t : List Char) : Option (Bool × List Char) :=
  if (t.takeWhile isSpaceChar).isEmpty then none
  else
    let r1 := t.dropWhile isSpaceChar
    let nl := tryNoLonger r1
    let r2 := match nl with | some r => r | none => r1
    let r3 := r2.dropWhile isSpaceChar
    if startsL "require".data r3 then
      let r4 := r3.drop 7
      if (r4.takeWhile isSpaceChar).isEmpty then none
      else
        let g3 := (r4.dropWhile isSpaceChar).takeWhile (fun c => c != '\n')
        if g3.isEmpty then none else some (nl.isSome, g3)
    else none

/-- Leftmost-lazy scan of `r'(.+?)\s+(no\s+longer)?\s*require\s+(.+)'`: the
lazy `(.+?)` grows from the start of the current newline-free run until the
rest of the pattern matches the remainder; a newline resets the run (the
dot does not match newlines). -/
def reqScan (acc : List Char) : List Char → Option (List Char × Bool × List Char)
  | [] => none
  | c :: rest =>
    if c == '\n' then reqScan [] rest
    else
      match reqTail rest with
      | some (nl, g3) => some (acc ++ [c], nl, g3)
      | none => reqScan (acc ++ [c]) rest

/-- Model of `re.search(r'Citizens of (.+)', category)`: leftmost literal
`Citizens of ` followed by a nonempty non-newline run. -/
def czSearch : List Char → Option (List Char)
  | [] => none
  | c :: rest =>
    if startsL "Citizens of ".data (c :: rest) then
      let g := ((c :: rest).drop 12).takeWhile (fun ch => ch != '\n')
      if g.isEmpty then czSearch rest else some g
    else czSearch rest

/-- `RequiredDocuments._merge_categories`: expand the synthetic `Entrants`
category over every country (the `None` sentinel included) and
`Foreigners` over every country except the home nation, merging into the
per-country sets through the defaultdict. -/
def merge_categories (cats : ReqDict) : ReqDict :=
  let cats1 :=
    match dlookup (some ENTRANTS) cats with
    | some entrants =>
      COUNTRIES.foldl (fun acc c => ddApply listUnion acc c entrants)
        (pyRemove (some ENTRANTS) cats)
    | none => cats
  match dlookup (some FOREIGNERS) cats1 with
  | some foreigners =>
    (COUNTRIES.drop 1).foldl (fun acc c => ddApply listUnion acc c foreigners)
      (pyRemove (some FOREIGNERS) cats1)
  | none => cats1

/-- `RequiredDocuments.parse`: category phrase, optional `no longer`, and
the comma-separated document list with spaces replaced by underscores; a
`Citizens of A, B, C` phrase expands to the listed nations; then the
synthetic categories are merged. -/
def required_parse (rule : String) : Except InspectError ReqParsed :=
  match reqScan [] rule.data with
  | none => .error (.parseError "RequiredDocuments" rule)
  | some (g1, nolonger, g3) =>
    let documents := (split2 ',' ' ' g3).map
      (fun d => String.mk (d.map (fun c => if c == ' ' then '_' else c)))
    let categories :=
      match czSearch g1 with
      | some g => (split2 ',' ' ' g).map String.mk
      | none => [String.mk g1]
    let cats : ReqDict := categories.foldl (fun acc cat => pyInsert (some cat) documents acc) []
    .ok ⟨merge_categories cats, nolonger⟩

/-- `RequiredDocuments.update`: per category of the incoming directive,
merge into (or, for `no longer`, subtract from) the stored set. -/
def required_update (cats : ReqDict) (other : ReqParsed) : ReqDict :=
  other.categories.foldl
    (fun acc kv => ddApply (if other.nolonger then listDiff else listUnion) acc kv.1 kv.2) cats

/-- The document-presence loop of `RequiredDocuments.judge`: deny with the
first missing required document, in `iterate_documents` order. -/
def present_loop (p : Papers) : List String → Except InspectError Judgement
  | [] => .ok Allow
  | d :: ds =>
    match document_present p d with
    | .error e => .error e
    | .ok true => present_loop p ds
    | .ok false => .ok ⟨false, true, "missing required " ++ document_name_for_display d⟩

/-- Presence check over a required set, iterated with vaccinations last. -/
def required_check (p : Papers) (required : List String) : Except InspectError Judgement :=
  present_loop p (iterate_documents required)

/-- `RequiredDocuments.judge`: asylum+passport or diplomat+passport skip the
checks; otherwise the nation's requirements (united with the workers'
requirements for a working entrant) must all be present.  The defaultdict
reads mutate the category dict, so the possibly-extended dict is returned
alongside the judgement; `papers.worker` may raise. -/
def required_judge (cats : ReqDict) (p : Papers) : ReqDict × Except InspectError Judgement :=
  if hasKey ASYLUM p && hasKey PASSPORT p then (cats, .ok Allow)
  else if hasKey DIPLOMAT p && hasKey PASSPORT p then (cats, .ok Allow)
  else
    match ddGet cats (papers_nation p) with
    | (req0, cats1) =>
      match papers_worker p with
      | .error e => (cats1, .error e)
      | .ok w =>
        if w then
          match ddGet cats1 (some WORKERS) with
          | (wreq, cats2) => (cats2, required_check p (listUnion req0 wreq))
        else (cats1, required_check p req0)

/-! ### AllowedNations rule -/

/-- `AllowedNations.REASON`. -/
def ALLOWED_REASON : String := "citizen of banned nation"

/-- `AllowedNations.matches`: the substring `citizens of` occurs. -/
def allowed_matches (rule : String) : Bool := containsSub "citizens of".data rule.data

/-- The tail of `r'(Allow|Deny)\s+citizens\s+of\s+(.+)'` after the polarity
keyword. -/
def allowedTail (t : List Char) : Option (List Char) :=
  if (t.takeWhile isSpaceChar).isEmpty then none
  else
    let r1 := t.dropWhile isSpaceChar
    if startsL "citizens".data r1 then
      let r2 := r1.drop 8
      if (r2.takeWhile isSpaceChar).isEmpty then none
      else
        let r3 := r2.dropWhile isSpaceChar
        if startsL "of".data r3 then
          let r4 := r3.drop 2
          if (r4.takeWhile isSpaceChar).isEmpty then none
          else
            let g := (r4.dropWhile isSpaceChar).takeWhile (fun c => c != '\n')
            if g.isEmpty then none else some g
        else none
    else none

/-- Model of `re.search(r'(Allow|Deny)\s+citizens\s+of\s+(.+)', rule)`:
leftmost position where either keyword (they are mutually exclusive) is
followed by the tail; returns the `Deny` polarity and the nation list. -/
def searchAllowed : List Char → Option (Bool × List Char)
  | [] => none
  | c :: rest =>
    if startsL "Allow".data (c :: rest) then
      match allowedTail ((c :: rest).drop 5) with
      | some g => some (false, g)
      | none => searchAllowed rest
    else if startsL "Deny".data (c :: rest) then
      match allowedTail ((c :: rest).drop 4) with
      | some g => some (true, g)
      | none => searchAllowed rest
    else searchAllowed rest

/-- A parsed nations directive: the nation set and the `Deny` polarity. -/
structure AllowedParsed where
  whitelist : List String
  deny : Bool
deriving DecidableEq, Repr

/-- `AllowedNations.parse`. -/
def allowed_parse (rule : String) : Except InspectError AllowedParsed :=
  match searchAllowed rule.data with
  | some (deny, g) => .ok ⟨(split2 ',' ' ' g).map String.mk, deny⟩
  | none => .error (.parseError "AllowedNations" rule)

/-- `AllowedNations.update`: merge on allow, subtract on deny. -/
def allowed_update (wl : List String) (other : AllowedParsed) : List String :=
  if other.deny then listDiff wl other.whitelist else listUnion wl other.whitelist

/-- Membership `papers.nation in whitelist` (a `None` nationality is never a
member of a set of strings). -/
def nationInSet (n : Option String) (wl : List String) : Bool :=
  match n with
  | some s => wl.contains s
  | none => false

/-- `AllowedNations.judge`: allow whitelisted nationalities, else deny. -/
def allowed_judge (wl : List String) (p : Papers) : Judgement :=
  if nationInSet (papers_nation p) wl then Allow else ⟨false, true, ALLOWED_REASON⟩

/-! ### Inspector -/

/-- The mutable registry state of `Inspector`: one instance per rule kind
(`ValidDocuments` is stateless). -/
structure Inspector where
  wantedName : String
  reqCategories : ReqDict
  whitelist : List String
deriving DecidableEq, Repr

/-- `Inspector.__init__`: empty wanted name, empty category dict, empty
whitelist. -/
def initInspector : Inspector := ⟨"", [], []⟩

/-- The fixed messages of `Inspector`. -/
def CITIZEN_ENTRY_MESSAGE : String := "Glory to Arstotzka."

/-- Message for an admitted foreigner. -/
def FOREIGNER_ENTRY_MESSAGE : String := "Cause no trouble."

/-- `Inspector.deny_message`. -/
def deny_message (reason : String) : String := "Entry denied: " ++ reason ++ "."

/-- `Inspector.detain_message`. -/
def detain_message (reason : String) : String := "Detainment: " ++ reason ++ "."

/-- `Inspector.entry_message`: the citizen greeting for the home nation,
else the foreigner greeting. -/
def entry_message (nation : Option String) : String :=
  if nation == some ARSTOTZKA then CITIZEN_ENTRY_MESSAGE else FOREIGNER_ENTRY_MESSAGE

/-- `ValidDocuments.matches`: never matches any bulletin line. -/
def valid_matches (_rule : String) : Bool := false

/-- One bulletin line through `receive_bulletin`'s inner loop: recognizers
tried in registration order (`WantedCriminals`, `ValidDocuments` — whose
`matches` is constantly false, so its `parse_error` branch is dead —,
`RequiredDocuments`, `AllowedNations`); the first match parses and updates
its rule; unmatched lines are ignored. -/
def applyLine (s : Inspector) (rule : String) : Except InspectError Inspector :=
  if wanted_matches rule then
    match wanted_parse rule with
    | .ok name => .ok { s with wantedName := name }
    | .error e => .error e
  else if valid_matches rule then
    .error (.parseError "ValidDocuments" rule)
  else if required_matches rule then
    match required_parse rule with
    | .ok other => .ok { s with reqCategories := required_update s.reqCategories other }
    | .error e => .error e
  else if allowed_matches rule then
    match allowed_parse rule with
    | .ok other => .ok { s with whitelist := allowed_update s.whitelist other }
    | .error e => .error e
  else .ok s

/-- Process bulletin lines in order; a raised parse error aborts the loop,
keeping the state reached so far (Python's exception propagates out of
`receive_bulletin`, leaving `self.rules` as already mutated). -/
def processLines (s : Inspector) : List String → Inspector × Option InspectError
  | [] => (s, none)
  | l :: ls =>
    match applyLine s l with
    | .ok s' => processLines s' ls
    | .error e => (s, some e)

/-- `Inspector.receive_bulletin`. -/
def receive_bulletin (s : Inspector) (bulletin : String) : Inspector × Option InspectError :=
  processLines s (pySplitlines bulletin)

/-- The judgement pipeline of `Inspector.inspect` on an already-built
record: rules in priority order, stopping at the first detain or deny;
`RequiredDocuments.judge` may extend the category dict (defaultdict
reads) and may raise. -/
def inspect_papers (s : Inspector) (p : Papers) : Inspector × Except InspectError String :=
  let j1 := wanted_judge s.wantedName p
  if j1.detain then (s, .ok (detain_message j1.reason))
  else if j1.deny then (s, .ok (deny_message j1.reason))
  else
    let j2 := valid_judge p
    if j2.detain then (s, .ok (detain_message j2.reason))
    else if j2.deny then (s, .ok (deny_message j2.reason))
    else
      match required_judge s.reqCategories p with
      | (cats', .error e) => ({ s with reqCategories := cats' }, .error e)
      | (cats', .ok j3) =>
        let s' := { s with reqCategories := cats' }
        if j3.detain then (s', .ok (detain_message j3.reason))
        else if j3.deny then (s', .ok (deny_message j3.reason))
        else
          let j4 := allowed_judge s.whitelist p
          if j4.detain then (s', .ok (detain_message j4.reason))
          else if j4.deny then (s', .ok (deny_message j4.reason))
          else (s', .ok (entry_message (papers_nation p)))

/-- `Inspector.inspect`: build the record (a malformed document line
raises), then run the pipeline. -/
def inspect (s : Inspector) (entrant : List (String × String)) :
    Inspector × Except InspectError String :=
  match mkPapers entrant with
  | .error e => (s, .error e)
  | .ok p => inspect_papers s p

/-! ### Helper lemmas -/

/-- `startsL` is the prefix relation. -/
theorem startsL_iff (pat : List Char) : ∀ l, startsL pat l = true ↔ ∃ t, l = pat ++ t := by
  induction pat with
  | nil => intro l; simp [startsL]
  | cons p ps ih =>
    intro l
    cases l with
    | nil => simp [startsL]
    | cons c cs =>
      simp only [startsL, Bool.and_eq_true, beq_iff_eq, ih, List.cons_append, List.cons.injEq]
      constructor
      · rintro ⟨rfl, t, rfl⟩; exact ⟨t, rfl, rfl⟩
      · rintro ⟨t, rfl, rfl⟩; exact ⟨rfl, t, rfl⟩

/-- A pattern is a prefix of itself followed by anything. -/
theorem startsL_append (pat t : List Char) : startsL pat (pat ++ t) = true :=
  (startsL_iff pat (pat ++ t)).mpr ⟨t, rfl⟩

/-- `takeWhile` keeps a list all of whose elements satisfy the predicate. -/
theorem takeWhile_of_all {p : Char → Bool} : ∀ {l : List Char}, (∀ c ∈ l, p c = true) →
    l.takeWhile p = l := by
  intro l
  induction l with
  | nil => intro _; rfl
  | cons c cs ih =>
    intro h
    rw [List.takeWhile_cons, if_pos (h c (by simp))]
    rw [ih (fun x hx => h x (by simp [hx]))]

/-- `map` fixes a list on which the function is the identity. -/
theorem map_eq_self_of {f : Char → Char} : ∀ {l : List Char}, (∀ c ∈ l, f c = c) →
    l.map f = l := by
  intro l
  induction l with
  | nil => intro _; rfl
  | cons c cs ih =>
    intro h
    simp only [List.map_cons, h c (by simp), ih (fun x hx => h x (by simp [hx]))]

/-- Membership in ASCII whitespace is one of six characters. -/
theorem isSpaceChar_cases {c : Char} (h : isSpaceChar c = true) :
    c = ' ' ∨ c = '\t' ∨ c = '\n' ∨ c = '\r' ∨ c = '\x0b' ∨ c = '\x0c' := by
  have h' := h
  simp only [isSpaceChar, Bool.or_eq_true, beq_iff_eq] at h'
  tauto

/-- Word characters are not whitespace (the two regex classes are disjoint). -/
theorem isWordChar_not_space {c : Char} (h : isWordChar c = true) : isSpaceChar c = false := by
  cases hs : isSpaceChar c with
  | false => rfl
  | true =>
    rcases isSpaceChar_cases hs with rfl | rfl | rfl | rfl | rfl | rfl <;>
      exact absurd h (by decide)

/-- Word characters are not newlines. -/
theorem isWordChar_ne_newline {c : Char} (h : isWordChar c = true) : ¬(c = '\n') := by
  rintro rfl; exact absurd h (by decide)

/-- Word characters are not commas. -/
theorem isWordChar_ne_comma {c : Char} (h : isWordChar c = true) : ¬(c = ',') := by
  rintro rfl; exact absurd h (by decide)

/-- Word characters are not spaces. -/
theorem isWordChar_ne_space {c : Char} (h : isWordChar c = true) : ¬(c = ' ') := by
  rintro rfl; exact absurd h (by decide)

/-- Lookup distributes over append, preferring the left list. -/
theorem dlookup_append_left {κ α : Type} [DecidableEq κ] {k : κ} {v : α} :
    ∀ {a : List (κ × α)} (b : List (κ × α)), dlookup k a = some v →
      dlookup k (a ++ b) = some v := by
  intro a
  induction a with
  | nil => intro b h; exact absurd h (by simp [dlookup])
  | cons kv rest ih =>
    intro b h
    rw [List.cons_append]
    rcases kv with ⟨k', v'⟩
    by_cases hk : k' = k
    · rw [dlookup, if_pos hk] at h ⊢; exact h
    · rw [dlookup, if_neg hk] at h ⊢; exact ih b h

/-- Lookup skips a left list that does not carry the key. -/
theorem dlookup_append_none {κ α : Type} [DecidableEq κ] {k : κ} :
    ∀ {a : List (κ × α)} (b : List (κ × α)), dlookup k a = none →
      dlookup k (a ++ b) = dlookup k b := by
  intro a
  induction a with
  | nil => intro b _; rfl
  | cons kv rest ih =>
    intro b h
    rcases kv with ⟨k', v'⟩
    rw [List.cons_append]
    by_cases hk : k' = k
    · rw [dlookup, if_pos hk] at h; exact absurd h (by simp)
    · rw [dlookup, if_neg hk] at h
      rw [dlookup, if_neg hk]
      exact ih b h

/-- A `defaultdict` read finds its key in the returned dict, bound to the
returned set. -/
theorem ddGet_snd_lookup {cats : ReqDict} {k : Option String} :
    dlookup k (ddGet cats k).2 = some (ddGet cats k).1 := by
  unfold ddGet
  cases h : dlookup k cats with
  | some v => simpa using h
  | none =>
    simp only
    rw [dlookup_append_none _ h]
    simp [dlookup]

/-- A `defaultdict` read on a key already present returns the dict
unchanged. -/
theorem ddGet_of_lookup {cats : ReqDict} {k : Option String} {v : List String}
    (h : dlookup k cats = some v) : ddGet cats k = (v, cats) := by
  unfold ddGet; rw [h]

/-- A `defaultdict` read preserves bindings already present. -/
theorem ddGet_preserves {cats : ReqDict} {k k' : Option String} {v : List String}
    (h : dlookup k' cats = some v) : dlookup k' (ddGet cats k).2 = some v := by
  unfold ddGet
  cases hk : dlookup k cats with
  | some w => simpa using h
  | none => simpa using dlookup_append_left [(k, [])] h

/-- A single-document record can never produce a field mismatch. -/
theorem scan_key_single (key : String) (x : String × FieldMap) :
    scan_key key none [x] = false := by
  rcases x with ⟨d, f⟩
  cases h : dlookup key f <;> simp [scan_key, h]

/-- String concatenation acts as list concatenation on the character data. -/
theorem strData_append (a b : String) : (a ++ b).data = a.data ++ b.data := rfl

/-- Deny messages start with `E`. -/
theorem deny_message_head (r : String) : (deny_message r).data.head? = some 'E' := by
  show ((("Entry denied: " ++ r) ++ ".").data).head? = some 'E'
  rw [strData_append, strData_append,
    show "Entry denied: ".data = 'E' :: "ntry denied: ".data from rfl]
  rfl

/-- Detain messages start with `D`. -/
theorem detain_message_head (r : String) : (detain_message r).data.head? = some 'D' := by
  show ((("Detainment: " ++ r) ++ ".").data).head? = some 'D'
  rw [strData_append, strData_append,
    show "Detainment: ".data = 'D' :: "etainment: ".data from rfl]
  rfl

/-- No deny or detain message is one of the two greeting messages. -/
theorem message_ne_greetings {m : String} (h : ∃ r, m = deny_message r ∨ m = detain_message r) :
    m ≠ CITIZEN_ENTRY_MESSAGE ∧ m ≠ FOREIGNER_ENTRY_MESSAGE := by
  rcases h with ⟨r, h | h⟩ <;> subst h <;> constructor <;> intro h <;>
    have hh := congrArg (fun s => s.data.head?) h <;>
    simp only [deny_message_head, detain_message_head] at hh <;>
    exact absurd hh (by decide)

/-- C1 (corrected).  Scenario 1's entrant is refused, not greeted: with the
freshly initialized registry the nation whitelist is empty, so after every
earlier rule allows, the allowed-nations rule denies; the concrete
ID-card-only entrant without a `NATION` field gets
`Entry denied: citizen of banned nation.`, which is not the
citizen-greeting claimed. -/
theorem c1_counterexample :
    (inspect initInspector [("ID_card", "ID#: 123")]).2 =
      .ok "Entry denied: citizen of banned nation." ∧
    "Entry denied: citizen of banned nation." ≠ "Glory to Arstotzka." := by
  exact ⟨rfl, by decide⟩

/-- C1 (amended): with a freshly initialized registry, for an entrant record
containing only an `ID_card` document whose fields do not include `NATION`
(and trigger no earlier rule: no `EXP` field, and no empty `NAME` matching
the initial empty wanted name), the nationality resolves to the home
nation Arstotzka, but `inspect` returns the deny message
`Entry denied: citizen of banned nation.` rather than the citizen
greeting. -/
theorem c1_fresh_idcard_denied (fields : FieldMap)
    (hN : dlookup NATION fields = none)
    (hE : dlookup EXPIRATION fields = none)
    (hNm : dlookup NAME fields ≠ some "") :
    papers_nation [(IDCARD, fields)] = some ARSTOTZKA ∧
    (inspect_papers initInspector [(IDCARD, fields)]).2 =
      .ok "Entry denied: citizen of banned nation." := by
  have hnation : papers_nation [(IDCARD, fields)] = some ARSTOTZKA := by
    unfold papers_nation lookup_attr
    rw [hN]
    rfl
  refine ⟨hnation, ?_⟩
  have hj1 : wanted_judge initInspector.wantedName [(IDCARD, fields)] = Allow := by
    unfold wanted_judge
    have heq : papers_name [(IDCARD, fields)] = dlookup NAME fields := by
      unfold papers_name lookup_attr
      cases h : dlookup NAME fields <;> simp [h, lookup_attr]
    rw [heq]
    cases h : dlookup NAME fields with
    | none => rfl
    | some v =>
      have hv : ¬(v = "") := fun hv => hNm (by rw [h, hv])
      rw [if_neg]
      simp only [beq_iff_eq, Option.some.injEq]
      exact hv
  have hj2 : valid_judge [(IDCARD, fields)] = Allow := by
    unfold valid_judge
    have hmm : check_mismatches [(IDCARD, fields)] = none := by
      simp [check_mismatches, MISMATCH_FIELDS, check_mismatches_go, scan_key_single]
    have hex : check_expiration_dates [(IDCARD, fields)] = none := by
      unfold check_expiration_dates
      rw [hE]
      rfl
    rw [hmm, hex]
    rfl
  have hj3 : required_judge initInspector.reqCategories [(IDCARD, fields)] =
      ([(some ARSTOTZKA, [])], .ok Allow) := by
    unfold required_judge
    rw [hnation]
    rfl
  have hj4 : allowed_judge initInspector.whitelist [(IDCARD, fields)] =
      ⟨false, true, ALLOWED_REASON⟩ := by
    unfold allowed_judge
    rw [hnation]
    rfl
  simp only [inspect_papers, hj1, hj2, hj3, hj4]
  rfl

/-- Witness for C1 amended: the minimal ID-card-only entrant. -/
theorem c1_fresh_idcard_denied_witness :
    papers_nation [(IDCARD, [("ID#", "123")])] = some ARSTOTZKA ∧
    (inspect_papers initInspector [(IDCARD, [("ID#", "123")])]).2 =
      .ok "Entry denied: citizen of banned nation." :=
  c1_fresh_idcard_denied [("ID#", "123")] (by decide) (by decide) (by decide)

/-- C2: with the initial (empty) whitelist, the allowed-nations judge denies
every record with reason `citizen of banned nation`; consequently, from
any registry state whose whitelist is still empty, `inspect` only ever
succeeds with a deny or detain message, never a greeting. -/
theorem c2_empty_whitelist_denies :
    (∀ p : Papers, allowed_judge [] p = ⟨false, true, ALLOWED_REASON⟩) ∧
    ∀ (s : Inspector) (e : List (String × String)) (m : String),
      s.whitelist = [] → (inspect s e).2 = .ok m →
      (∃ r, m = deny_message r ∨ m = detain_message r) ∧
      m ≠ CITIZEN_ENTRY_MESSAGE ∧ m ≠ FOREIGNER_ENTRY_MESSAGE := by
  have hden : ∀ p : Papers, allowed_judge [] p = ⟨false, true, ALLOWED_REASON⟩ := by
    intro p
    unfold allowed_judge
    cases papers_nation p <;> rfl
  refine ⟨hden, ?_⟩
  intro s e m hwl h
  have shape : ∃ r, m = deny_message r ∨ m = detain_message r := by
    unfold inspect at h
    cases hmk : mkPapers e with
    | error err => rw [hmk] at h; exact absurd h (by simp)
    | ok p =>
      rw [hmk] at h
      simp only [inspect_papers] at h
      by_cases h1 : (wanted_judge s.wantedName p).detain
      · rw [if_pos h1] at h
        exact ⟨_, Or.inr (by simpa using h.symm)⟩
      · rw [if_neg h1] at h
        by_cases h1d : (wanted_judge s.wantedName p).deny
        · rw [if_pos h1d] at h
          exact ⟨_, Or.inl (by simpa using h.symm)⟩
        · rw [if_neg h1d] at h
          by_cases h2 : (valid_judge p).detain
          · rw [if_pos h2] at h
            exact ⟨_, Or.inr (by simpa using h.symm)⟩
          · rw [if_neg h2] at h
            by_cases h2d : (valid_judge p).deny
            · rw [if_pos h2d] at h
              exact ⟨_, Or.inl (by simpa using h.symm)⟩
            · rw [if_neg h2d] at h
              rcases hr : required_judge s.reqCategories p with ⟨cats', jr⟩
              rw [hr] at h
              cases jr with
              | error err => exact absurd h (by simp)
              | ok j3 =>
                simp only at h
                by_cases h3 : j3.detain
                · rw [if_pos h3] at h
                  exact ⟨_, Or.inr (by simpa using h.symm)⟩
                · rw [if_neg h3] at h
                  by_cases h3d : j3.deny
                  · rw [if_pos h3d] at h
                    exact ⟨_, Or.inl (by simpa using h.symm)⟩
                  · rw [if_neg h3d] at h
                    rw [hwl, hden p] at h
                    exact ⟨ALLOWED_REASON, Or.inl (by simpa using h.symm)⟩
  exact ⟨shape, message_ne_greetings shape⟩

/-- Witness for C2: the fresh inspector refuses a bare-passport entrant with
the banned-nation deny message. -/
theorem c2_empty_whitelist_denies_witness :
    (∃ r, "Entry denied: citizen of banned nation." = deny_message r ∨
        "Entry denied: citizen of banned nation." = detain_message r) ∧
    "Entry denied: citizen of banned nation." ≠ CITIZEN_ENTRY_MESSAGE ∧
    "Entry denied: citizen of banned nation." ≠ FOREIGNER_ENTRY_MESSAGE :=
  c2_empty_whitelist_denies.2 initInspector [("passport", "NAME: X")]
    "Entry denied: citizen of banned nation." rfl rfl

/-- C3 (corrected).  The wanted-criminal reason in the source is
`Entrant is a wanted criminal`, so the detain message after ingesting
`Wanted: John Smith` is `Detainment: Entrant is a wanted criminal.`, not
the claimed `Detainment: Entry is a wanted criminal.`. -/
theorem c3_counterexample :
    (inspect (receive_bulletin initInspector "Wanted: John Smith").1
        [("passport", "NAME: Smith, John")]).2 =
      .ok "Detainment: Entrant is a wanted criminal." ∧
    "Detainment: Entrant is a wanted criminal." ≠
      "Detainment: Entry is a wanted criminal." := by
  exact ⟨rfl, by decide⟩

/-- C3 (amended): after ingesting the bulletin `Wanted: John Smith`, every
record whose derived name is `Smith, John` is detained by the first rule
with exactly the message `Detainment: Entrant is a wanted criminal.`,
regardless of what other documents are presented. -/
theorem c3_wanted_detains (p : Papers)
    (hname : papers_name p = some "Smith, John") :
    (inspect_papers (receive_bulletin initInspector "Wanted: John Smith").1 p).2 =
      .ok "Detainment: Entrant is a wanted criminal." := by
  have hs : (receive_bulletin initInspector "Wanted: John Smith").1 =
      ⟨"Smith, John", [], []⟩ := rfl
  rw [hs]
  have hj1 : wanted_judge (Inspector.mk "Smith, John" [] []).wantedName p =
      ⟨true, false, WANTED_REASON⟩ := by
    unfold wanted_judge
    rw [hname]
    rfl
  simp only [inspect_papers, hj1]
  rfl

/-- Witness for C3 amended: a passport bearing the wanted name. -/
theorem c3_wanted_detains_witness :
    (inspect_papers (receive_bulletin initInspector "Wanted: John Smith").1
        [("passport", [("NAME", "Smith, John")])]).2 =
      .ok "Detainment: Entrant is a wanted criminal." :=
  c3_wanted_detains [("passport", [("NAME", "Smith, John")])] (by decide)

/-- Every character of `_vaccination` is a word character. -/
theorem vaccSuffix_word : ∀ c ∈ vaccSuffix, isWordChar c = true := by decide

/-- The greedy split of a word string followed by `_vaccination` is exactly
at the junction: no later occurrence of `_vaccination` fits. -/
theorem maxVaccSplit_append : ∀ X : List Char, maxVaccSplit (X ++ vaccSuffix) = some X.length := by
  intro X
  induction X with
  | nil => decide
  | cons c X' ih => simp [maxVaccSplit, ih]

/-- The captured group of the run `X ++ _vaccination` is `X` itself when
`X` is nonempty. -/
theorem groupOfRun_append (X : List Char) (hne : X ≠ []) :
    groupOfRun (X ++ vaccSuffix) = some X := by
  unfold groupOfRun
  rw [maxVaccSplit_append]
  show (if X.length = 0 then none else some ((X ++ vaccSuffix).take X.length)) = some X
  rw [if_neg (by simpa using hne), List.take_left]

/-- The `(\w+)_vaccination` search on a nonempty all-word-character string
followed by the literal suffix captures exactly that string: the regex
extraction strips the suffix. -/
theorem searchVacc_strip (X : List Char) (hne : X ≠ []) (hw : ∀ c ∈ X, isWordChar c = true) :
    searchVacc (X ++ vaccSuffix) = some X := by
  rcases X with _ | ⟨c, X'⟩
  · exact absurd rfl hne
  · have hrest : (X' ++ vaccSuffix).takeWhile isWordChar = X' ++ vaccSuffix :=
      takeWhile_of_all (by
        intro x hx
        rcases List.mem_append.mp hx with hx | hx
        · exact hw x (by simp [hx])
        · exact vaccSuffix_word x hx)
    show searchVaccFuel ((c :: X') ++ vaccSuffix).length ((c :: X') ++ vaccSuffix) = some (c :: X')
    rw [List.cons_append,
      show (c :: (X' ++ vaccSuffix)).length = (X' ++ vaccSuffix).length + 1 from rfl]
    unfold searchVaccFuel
    rw [if_pos (hw c (by simp)), hrest,
      show c :: (X' ++ vaccSuffix) = (c :: X') ++ vaccSuffix from rfl,
      groupOfRun_append (c :: X') (by simp)]

/-- A word string followed by `_vaccination` ends with `vaccination`. -/
theorem endsWithVacc_append (X : List Char) :
    endsWithVacc (String.mk (X ++ vaccSuffix)) = true := by
  show startsL "vaccination".data.reverse (X ++ vaccSuffix).reverse = true
  rw [List.reverse_append,
    show vaccSuffix.reverse = "vaccination".data.reverse ++ ['_'] from rfl,
    List.append_assoc]
  exact startsL_append _ _

/-- Appending `_vaccination` to anything other than `certificate_of` never
produces the certificate's own identifier. -/
theorem mk_vacc_ne_cert {X : List Char} (h : X ≠ "certificate_of".data) :
    String.mk (X ++ vaccSuffix) ≠ VACCINATION_CERT := by
  intro hc
  have hdata : X ++ vaccSuffix = "certificate_of".data ++ vaccSuffix := by
    have := congrArg String.data hc
    simpa using this
  exact h (List.append_cancel_right hdata)

/-- C4 (corrected).  With no vaccination certificate presented, a
per-disease vaccination requirement is still satisfied when the entrant
literally presents a document of that identifier: `document_present` falls
through to the plain membership test, contradicting the claim that the
requirement is never satisfied without a certificate. -/
theorem c4_counterexample :
    document_present [("measles_vaccination", [])] "measles_vaccination" = .ok true ∧
    hasKey VACCINATION_CERT [("measles_vaccination", ([] : FieldMap))] = false := by
  exact ⟨rfl, rfl⟩

/-- C4 (amended): for every record and per-disease requirement
`X_vaccination` (nonempty word-character disease part, not the
certificate identifier itself), the presence check is decided by
certificate membership of the disease (suffix stripped, underscores to
spaces) when a certificate is present, and falls back to literal document
membership when no certificate is presented; a certificate without a
`VACCINES` field propagates its `KeyError`. -/
theorem c4_vaccination_presence (p : Papers) (X : List Char)
    (hne : X ≠ []) (hw : ∀ c ∈ X, isWordChar c = true)
    (hcert : X ≠ "certificate_of".data) :
    document_present p (String.mk (X ++ vaccSuffix)) =
      match certificate_of_vaccination p with
      | .ok (some vaccines) => .ok (vaccines.contains (String.mk (underscoresToSpaces X)))
      | .ok none => .ok (hasKey (String.mk (X ++ vaccSuffix)) p)
      | .error e => .error e := by
  unfold document_present
  rw [if_pos ⟨mk_vacc_ne_cert hcert, endsWithVacc_append X⟩]
  cases hcov : certificate_of_vaccination p with
  | error e => rfl
  | ok o =>
    cases o with
    | none => rfl
    | some vaccines =>
      show (match searchVacc (String.mk (X ++ vaccSuffix)).data with
        | some grp => Except.ok (vaccines.contains (String.mk (underscoresToSpaces grp)))
        | none => Except.ok (hasKey (String.mk (X ++ vaccSuffix)) p)) = _
      rw [show (String.mk (X ++ vaccSuffix)).data = X ++ vaccSuffix from rfl,
        searchVacc_strip X hne hw]

/-- Witness for C4 amended: a `yellow_fever_vaccination` requirement against
a certificate listing measles and polio. -/
theorem c4_vaccination_presence_witness :
    document_present [(VACCINATION_CERT, [(VACCINES, "measles, polio")])]
        (String.mk ("yellow_fever".data ++ vaccSuffix)) =
      match certificate_of_vaccination [(VACCINATION_CERT, [(VACCINES, "measles, polio")])] with
      | .ok (some vaccines) =>
        .ok (vaccines.contains (String.mk (underscoresToSpaces "yellow_fever".data)))
      | .ok none =>
        .ok (hasKey (String.mk ("yellow_fever".data ++ vaccSuffix))
          [(VACCINATION_CERT, [(VACCINES, "measles, polio")])])
      | .error e => .error e :=
  c4_vaccination_presence _ _ (by decide) (by decide) (by decide)

/-- C5 (corrected).  An access permit with no `PURPOSE` field makes the
worker query raise `KeyError`, not return false. -/
theorem c5_counterexample :
    papers_worker [("access_permit", [("NAME", "X")])] = .error (.keyError PURPOSE) ∧
    papers_worker [("access_permit", [("NAME", "X")])] ≠ .ok false := by
  refine ⟨rfl, fun h => ?_⟩
  rw [show papers_worker [("access_permit", [("NAME", "X")])] =
    .error (.keyError PURPOSE) from rfl] at h
  exact Except.noConfusion h

/-- C5 (amended): `worker` returns true exactly when an access permit is
present whose `PURPOSE` field equals `WORK`; when the permit carries no
`PURPOSE` field at all, the lookup raises `KeyError` instead of returning
false. -/
theorem c5_worker (p : Papers) :
    (papers_worker p = .ok true ↔
      ∃ perm, dlookup ACCESS_PERMIT p = some perm ∧ dlookup PURPOSE perm = some WORK) ∧
    ∀ perm, dlookup ACCESS_PERMIT p = some perm → dlookup PURPOSE perm = none →
      papers_worker p = .error (.keyError PURPOSE) := by
  constructor
  · unfold papers_worker
    cases hp : dlookup ACCESS_PERMIT p with
    | none => simp
    | some perm =>
      cases hv : dlookup PURPOSE perm with
      | none => simp [hv]
      | some v => simp [hv, beq_iff_eq]
  · intro perm hp hv
    simp [papers_worker, hp, hv]

/-- Witness for C5 amended: a working permit is recognized and a
purposeless permit raises. -/
theorem c5_worker_witness :
    papers_worker [("access_permit", [("PURPOSE", "WORK")])] = .ok true ∧
    papers_worker [("access_permit", [("NAME", "X")])] = .error (.keyError PURPOSE) :=
  ⟨(c5_worker [("access_permit", [("PURPOSE", "WORK")])]).1.mpr
      ⟨[("PURPOSE", "WORK")], rfl, rfl⟩,
   (c5_worker [("access_permit", [("NAME", "X")])]).2 [("NAME", "X")] rfl rfl⟩

/-- A plain (non-vaccination-suffixed) requirement is decided by literal
document membership, with no possibility of an error. -/
theorem doc_present_plain (p : Papers) (d : String) (h : endsWithVacc d = false) :
    document_present p d = .ok (hasKey d p) := by
  unfold document_present
  rw [if_neg]
  rintro ⟨-, h2⟩
  rw [h] at h2
  exact Bool.noConfusion h2

/-- Scanning a block of plain requirements followed by anything: if some
plain requirement is missing, the loop denies with the first missing one,
before ever reaching the deferred block. -/
theorem present_loop_plain_missing (p : Papers) :
    ∀ l1 l2 : List String, (∀ x ∈ l1, endsWithVacc x = false) →
      (∃ x ∈ l1, hasKey x p = false) →
      ∃ d0, d0 ∈ l1 ∧ hasKey d0 p = false ∧
        present_loop p (l1 ++ l2) =
          .ok ⟨false, true, "missing required " ++ document_name_for_display d0⟩ := by
  intro l1
  induction l1 with
  | nil =>
    intro l2 _ hex
    rcases hex with ⟨x, hx, _⟩
    exact absurd hx (List.not_mem_nil x)
  | cons d ds ih =>
    intro l2 hplain hex
    cases hk : hasKey d p with
    | false =>
      refine ⟨d, by simp, hk, ?_⟩
      rw [List.cons_append]
      unfold present_loop
      rw [doc_present_plain p d (hplain d (by simp)), hk]
    | true =>
      have hex' : ∃ x ∈ ds, hasKey x p = false := by
        rcases hex with ⟨x, hx, hxf⟩
        rcases List.mem_cons.mp hx with rfl | hx'
        · rw [hk] at hxf; exact absurd hxf (by simp)
        · exact ⟨x, hx', hxf⟩
      rcases ih l2 (fun x hx => hplain x (by simp [hx])) hex' with ⟨d0, h0, h0f, hpl⟩
      refine ⟨d0, by simp [h0], h0f, ?_⟩
      rw [List.cons_append]
      unfold present_loop
      rw [doc_present_plain p d (hplain d (by simp)), hk]
      exact hpl

/-- C6: plain requirements are checked before any vaccination-category
requirement regardless of the stored order: whenever a plain requirement
and a vaccination requirement are both unmet, the required-documents check
denies with the display name of a missing plain document. -/
theorem c6_plain_checked_first (p : Papers) (req : List String) (d v : String)
    (hd : d ∈ req) (hdp : endsWithVacc d = false) (hdm : document_present p d = .ok false)
    (_hv : v ∈ req) (_hvv : endsWithVacc v = true) (_hvm : document_present p v ≠ .ok true) :
    ∃ d0, d0 ∈ req ∧ endsWithVacc d0 = false ∧ document_present p d0 = .ok false ∧
      required_check p req =
        .ok ⟨false, true, "missing required " ++ document_name_for_display d0⟩ := by
  have hkd : hasKey d p = false := by
    have h1 := (doc_present_plain p d hdp).symm.trans hdm
    simpa using h1
  have hmem : d ∈ req.filter (fun x => !(endsWithVacc x)) :=
    List.mem_filter.mpr ⟨hd, by rw [hdp]; rfl⟩
  rcases present_loop_plain_missing p (req.filter (fun x => !(endsWithVacc x)))
      (if (req.filter (fun x => endsWithVacc x)).isEmpty then []
        else VACCINATION_CERT :: req.filter (fun x => endsWithVacc x))
      (fun x hx => by
        have := (List.mem_filter.mp hx).2
        simpa using this)
      ⟨d, hmem, hkd⟩ with ⟨d0, h0, h0f, hpl⟩
  have h0req : d0 ∈ req := (List.mem_filter.mp h0).1
  have h0plain : endsWithVacc d0 = false := by
    have := (List.mem_filter.mp h0).2
    simpa using this
  exact ⟨d0, h0req, h0plain, (doc_present_plain p d0 h0plain).trans (by rw [h0f]),
    by simpa only [required_check, iterate_documents] using hpl⟩

/-- Witness for C6: a stored set listing the vaccination requirement before
the plain one still reports the missing plain document. -/
theorem c6_plain_checked_first_witness :
    ∃ d0, d0 ∈ ["measles_vaccination", "ID_card"] ∧ endsWithVacc d0 = false ∧
      document_present [] d0 = .ok false ∧
      required_check [] ["measles_vaccination", "ID_card"] =
        .ok ⟨false, true, "missing required " ++ document_name_for_display d0⟩ :=
  c6_plain_checked_first [] ["measles_vaccination", "ID_card"] "ID_card"
    "measles_vaccination" (by decide) (by decide) rfl (by decide) (by decide)
    (fun h => by
      rw [show document_present [] "measles_vaccination" = .ok false from rfl] at h
      exact absurd (Except.ok.inj h) (by decide))

/-- `takeWhile isSpaceChar` stops at a non-space head. -/
theorem tw_notspace_head {c : Char} (h : isSpaceChar c = false) (u : List Char) :
    (c :: u).takeWhile isSpaceChar = [] := by
  rw [List.takeWhile_cons, if_neg (by simp [h])]

/-- `dropWhile isSpaceChar` keeps a list with a non-space head. -/
theorem dw_notspace_head {c : Char} (h : isSpaceChar c = false) (u : List Char) :
    (c :: u).dropWhile isSpaceChar = c :: u := by
  rw [List.dropWhile_cons, if_neg (by simp [h])]

/-- A block beginning with a word string has no leading whitespace. -/
theorem tw_word_append {A : List Char} (hA : A ≠ []) (hw : ∀ c ∈ A, isWordChar c = true)
    (u : List Char) : (A ++ u).takeWhile isSpaceChar = [] := by
  rcases A with _ | ⟨a, A'⟩
  · exact absurd rfl hA
  · rw [List.cons_append]
    exact tw_notspace_head (isWordChar_not_space (hw a (by simp))) _

/-- A block beginning with a word string survives `dropWhile isSpaceChar`. -/
theorem dw_word_append {A : List Char} (hA : A ≠ []) (hw : ∀ c ∈ A, isWordChar c = true)
    (u : List Char) : (A ++ u).dropWhile isSpaceChar = A ++ u := by
  rcases A with _ | ⟨a, A'⟩
  · exact absurd rfl hA
  · rw [List.cons_append]
    exact dw_notspace_head (isWordChar_not_space (hw a (by simp))) _

/-- The space character is whitespace. -/
theorem space_sp : isSpaceChar ' ' = true := rfl

/-- The letter `r` is not whitespace. -/
theorem notspace_r : isSpaceChar 'r' = false := rfl

/-- The letter `n` is not whitespace. -/
theorem notspace_n : isSpaceChar 'n' = false := rfl

/-- A word-character head makes the tail pattern of the required-documents
regex fail immediately (its `\s+` finds no whitespace). -/
theorem reqTail_word_head {w : Char} (hw : isWordChar w = true) (t : List Char) :
    reqTail (w :: t) = none := by
  unfold reqTail
  rw [tw_notspace_head (isWordChar_not_space hw)]
  rfl

/-- The lazy scan of the required-documents regex over a nonempty word
category phrase: the lazy group grows through the whole phrase (the tail
pattern cannot match inside it) and then captures it, the remainder being
matched by the tail pattern. -/
theorem reqScan_word : ∀ (X : List Char), X ≠ [] → (∀ c ∈ X, isWordChar c = true) →
    ∀ (acc t : List Char) (nl : Bool) (g3 : List Char), reqTail t = some (nl, g3) →
    reqScan acc (X ++ t) = some (acc ++ X, nl, g3) := by
  intro X
  induction X with
  | nil => intro h; exact absurd rfl h
  | cons c X' ih =>
    intro _ hw acc t nl g3 ht
    rw [List.cons_append]
    unfold reqScan
    rw [if_neg (by simp [isWordChar_ne_newline (hw c (by simp))])]
    rcases X' with _ | ⟨c2, X''⟩
    · rw [List.nil_append, ht]
    · rw [show (c2 :: X'') ++ t = c2 :: (X'' ++ t) from rfl,
        reqTail_word_head (hw c2 (by simp))]
      have := ih (by simp) (fun x hx => hw x (by simp [hx])) (acc ++ [c]) t nl g3 ht
      rw [show c2 :: (X'' ++ t) = (c2 :: X'') ++ t from rfl, this, List.append_assoc]
      rfl

/-- The tail of a positive `require` directive after the category: one
space, the literal, one space, then the document list as the greedy
group. -/
theorem reqTail_require (A B : List Char) (hA : A ≠ []) (hwA : ∀ c ∈ A, isWordChar c = true)
    (hwB : ∀ c ∈ B, isWordChar c = true) :
    reqTail (" require ".data ++ (A ++ (", ".data ++ B))) =
      some (false, A ++ (", ".data ++ B)) := by
  have hnl : ∀ c ∈ A ++ (", ".data ++ B), (c != '\n') = true := by
    intro c hc
    rcases List.mem_append.mp hc with hc | hc
    · simpa using isWordChar_ne_newline (hwA c hc)
    · rcases List.mem_append.mp hc with hc | hc
      · have hc2 : c = ',' ∨ c = ' ' := by simpa using hc
        rcases hc2 with rfl | rfl <;> rfl
      · simpa using isWordChar_ne_newline (hwB c hc)
  have e1 : (" require ".data ++ (A ++ (", ".data ++ B))).takeWhile isSpaceChar = [' '] := by
    rw [show " require ".data ++ (A ++ (", ".data ++ B)) =
      ' ' :: ('r' :: ("equire ".data ++ (A ++ (", ".data ++ B)))) from rfl,
      List.takeWhile_cons, if_pos space_sp,
      tw_notspace_head notspace_r]
  have e2 : (" require ".data ++ (A ++ (", ".data ++ B))).dropWhile isSpaceChar =
      "require ".data ++ (A ++ (", ".data ++ B)) := by
    rw [show " require ".data ++ (A ++ (", ".data ++ B)) =
      ' ' :: ("require ".data ++ (A ++ (", ".data ++ B))) from rfl,
      List.dropWhile_cons, if_pos space_sp,
      show "require ".data ++ (A ++ (", ".data ++ B)) =
        'r' :: ("equire ".data ++ (A ++ (", ".data ++ B))) from rfl,
      dw_notspace_head notspace_r]
  have e3 : tryNoLonger ("require ".data ++ (A ++ (", ".data ++ B))) = none := rfl
  have e4 : ("require ".data ++ (A ++ (", ".data ++ B))).dropWhile isSpaceChar =
      "require ".data ++ (A ++ (", ".data ++ B)) := by
    rw [show "require ".data ++ (A ++ (", ".data ++ B)) =
      'r' :: ("equire ".data ++ (A ++ (", ".data ++ B))) from rfl,
      dw_notspace_head notspace_r]
  have e5 : startsL "require".data ("require ".data ++ (A ++ (", ".data ++ B))) = true := rfl
  have e6 : ("require ".data ++ (A ++ (", ".data ++ B))).drop 7 =
      ' ' :: (A ++ (", ".data ++ B)) := rfl
  have e7 : (' ' :: (A ++ (", ".data ++ B))).takeWhile isSpaceChar = [' '] := by
    rw [List.takeWhile_cons, if_pos space_sp, tw_word_append hA hwA]
  have e8 : (' ' :: (A ++ (", ".data ++ B))).dropWhile isSpaceChar = A ++ (", ".data ++ B) := by
    rw [List.dropWhile_cons, if_pos space_sp, dw_word_append hA hwA]
  have e9 : (A ++ (", ".data ++ B)).takeWhile (fun c => c != '\n') = A ++ (", ".data ++ B) :=
    takeWhile_of_all hnl
  have e10 : (A ++ (", ".data ++ B)).isEmpty = false := by
    rcases A with _ | ⟨a, A'⟩
    · exact absurd rfl hA
    · rfl
  simp only [reqTail, e1, e2, e3, e4, e5, e6, e7, e8, e9, e10, List.isEmpty_cons,
    Bool.false_eq_true, if_false, if_true, Option.isSome_none]

/-- The tail of a `no longer require` directive after the category. -/
theorem reqTail_nolonger (A : List Char) (hA : A ≠ []) (hwA : ∀ c ∈ A, isWordChar c = true) :
    reqTail (" no longer require ".data ++ A) = some (true, A) := by
  have e1 : (" no longer require ".data ++ A).takeWhile isSpaceChar = [' '] := by
    rw [show " no longer require ".data ++ A =
      ' ' :: ('n' :: ("o longer require ".data ++ A)) from rfl,
      List.takeWhile_cons, if_pos space_sp,
      tw_notspace_head notspace_n]
  have e2 : (" no longer require ".data ++ A).dropWhile isSpaceChar =
      "no longer require ".data ++ A := by
    rw [show " no longer require ".data ++ A =
      ' ' :: ("no longer require ".data ++ A) from rfl,
      List.dropWhile_cons, if_pos space_sp,
      show "no longer require ".data ++ A = 'n' :: ("o longer require ".data ++ A) from rfl,
      dw_notspace_head notspace_n]
  have e3 : tryNoLonger ("no longer require ".data ++ A) = some (" require ".data ++ A) := rfl
  have e4 : (" require ".data ++ A).dropWhile isSpaceChar = "require ".data ++ A := by
    rw [show " require ".data ++ A = ' ' :: ("require ".data ++ A) from rfl,
      List.dropWhile_cons, if_pos space_sp,
      show "require ".data ++ A = 'r' :: ("equire ".data ++ A) from rfl,
      dw_notspace_head notspace_r]
  have e5 : startsL "require".data ("require ".data ++ A) = true := rfl
  have e6 : ("require ".data ++ A).drop 7 = ' ' :: A := rfl
  have e7 : (' ' :: A).takeWhile isSpaceChar = [' '] := by
    rcases A with _ | ⟨a, A'⟩
    · exact absurd rfl hA
    · rw [List.takeWhile_cons, if_pos space_sp,
        tw_notspace_head (isWordChar_not_space (hwA a (by simp)))]
  have e8 : (' ' :: A).dropWhile isSpaceChar = A := by
    rcases A with _ | ⟨a, A'⟩
    · exact absurd rfl hA
    · rw [List.dropWhile_cons, if_pos space_sp,
        dw_notspace_head (isWordChar_not_space (hwA a (by simp)))]
  have e9 : A.takeWhile (fun c => c != '\n') = A :=
    takeWhile_of_all (fun c hc => by simpa using isWordChar_ne_newline (hwA c hc))
  have e10 : A.isEmpty = false := by
    rcases A with _ | ⟨a, A'⟩
    · exact absurd rfl hA
    · rfl
  simp only [reqTail, e1, e2, e3, e4, e5, e6, e7, e8, e9, e10, List.isEmpty_cons,
    Bool.false_eq_true, if_false, if_true, Option.isSome_some]

/-- `str.split(', ')` of a word string followed by `, ` peels off the first
document. -/
theorem split2_comma_word : ∀ (A : List Char), (∀ c ∈ A, isWordChar c = true) →
    ∀ B : List Char, split2 ',' ' ' (A ++ (',' :: ' ' :: B)) = A :: split2 ',' ' ' B := by
  intro A
  induction A with
  | nil => intro _ B; rfl
  | cons a A' ih =>
    intro hw B
    have ha : (a == ',') = false := by
      simpa using isWordChar_ne_comma (hw a (by simp))
    rcases A' with _ | ⟨a2, A''⟩
    · show split2 ',' ' ' (a :: ',' :: ' ' :: B) = [a] :: split2 ',' ' ' B
      conv_lhs => rw [split2]
      rw [ha, Bool.false_and,
        if_neg (by simp : ¬((false : Bool) = true)),
        show split2 ',' ' ' (',' :: ' ' :: B) = [] :: split2 ',' ' ' B from rfl]
    · show split2 ',' ' ' (a :: (a2 :: (A'' ++ (',' :: ' ' :: B)))) = _
      conv_lhs => rw [split2]
      rw [ha, Bool.false_and,
        if_neg (by simp : ¬((false : Bool) = true))]
      have hrec := ih (fun x hx => hw x (by simp [hx])) B
      rw [show a2 :: (A'' ++ (',' :: ' ' :: B)) = (a2 :: A'') ++ (',' :: ' ' :: B) from rfl, hrec]

/-- `str.split(', ')` of a pure word string is the singleton list. -/
theorem split2_word_single : ∀ (B : List Char), (∀ c ∈ B, isWordChar c = true) →
    split2 ',' ' ' B = [B] := by
  intro B
  induction B with
  | nil => intro _; rfl
  | cons b B' ih =>
    intro hw
    have hb : (b == ',') = false := by
      simpa using isWordChar_ne_comma (hw b (by simp))
    rcases B' with _ | ⟨b2, B''⟩
    · rfl
    · conv_lhs => rw [split2]
      rw [hb, Bool.false_and,
        if_neg (by simp : ¬((false : Bool) = true)),
        ih (fun x hx => hw x (by simp [hx]))]

/-- The `Citizens of (.+)` search never matches inside a pure word string
(the literal contains spaces). -/
theorem czSearch_word : ∀ (X : List Char), (∀ c ∈ X, isWordChar c = true) →
    czSearch X = none := by
  intro X
  induction X with
  | nil => intro _; rfl
  | cons c X' ih =>
    unfold czSearch
    intro hw
    rw [if_neg]
    · exact ih (fun x hx => hw x (by simp [hx]))
    · intro hstart
      rcases (startsL_iff _ _).mp hstart with ⟨t, ht⟩
      have hsp : ' ' ∈ c :: X' := by
        rw [ht]
        exact List.mem_append.mpr (Or.inl (by decide))
      exact absurd (hw ' ' hsp) (by decide)

/-- Replacing spaces by underscores fixes a word string. -/
theorem replace_space_word {A : List Char} (hw : ∀ c ∈ A, isWordChar c = true) :
    A.map (fun c => if c == ' ' then '_' else c) = A :=
  map_eq_self_of (fun c hc => by
    rw [if_neg (by simpa using isWordChar_ne_space (hw c hc))])

/-- The union with an empty left set keeps the incoming set. -/
theorem listUnion_nil : ∀ l : List String, listUnion [] l = l := by
  intro l
  induction l with
  | nil => rfl
  | cons x xs ih =>
    show ([] : List String) ++ List.filter (fun y => !(List.contains [] y)) (x :: xs) = x :: xs
    have hx : (!(List.contains ([] : List String) x)) = true := rfl
    rw [List.filter_cons, if_pos hx]
    simp only [List.nil_append] at ih ⊢
    rw [show List.filter (fun y => !(List.contains [] y)) xs = xs from ih]

/-- Rebuilding a string from its character data is the identity. -/
theorem strMk_data (s : String) : String.mk s.data = s := rfl

/-- Membership in a list-modelled set difference. -/
theorem mem_listDiff {l b : List String} {x : String} :
    x ∈ listDiff l b ↔ x ∈ l ∧ x ∉ b := by
  simp [listDiff, List.mem_filter, List.contains, List.elem_iff]

/-- Merging the synthetic categories changes nothing when the only category
is a concrete one. -/
theorem merge_categories_single (X : String) (hXE : X ≠ ENTRANTS) (hXF : X ≠ FOREIGNERS)
    (docs : List String) : merge_categories [(some X, docs)] = [(some X, docs)] := by
  have hE : dlookup (some ENTRANTS) [(some X, docs)] = none := by
    unfold dlookup
    rw [if_neg (by simpa using hXE)]
    rfl
  have hF : dlookup (some FOREIGNERS) [(some X, docs)] = none := by
    unfold dlookup
    rw [if_neg (by simpa using hXF)]
    rfl
  simp only [merge_categories, hE, hF]

/-- C7: absorbing `X require A, B` and then `X no longer require A` into the
freshly initialized required-documents rule leaves category `X` mapped to
exactly the set `{B}`.  `X` is a concrete category (a nonempty word string
distinct from the synthetic `Entrants`/`Foreigners`), and `A`, `B` are
distinct nonempty word document names. -/
theorem c7_require_inverse (X A B : String)
    (hXne : X.data ≠ []) (hXw : ∀ c ∈ X.data, isWordChar c = true)
    (hXE : X ≠ ENTRANTS) (hXF : X ≠ FOREIGNERS)
    (hAne : A.data ≠ []) (hAw : ∀ c ∈ A.data, isWordChar c = true)
    (hBne : B.data ≠ []) (hBw : ∀ c ∈ B.data, isWordChar c = true)
    (hAB : A ≠ B) :
    ∃ r1 r2,
      required_parse (X ++ " require " ++ A ++ ", " ++ B) = .ok r1 ∧
      required_parse (X ++ " no longer require " ++ A) = .ok r2 ∧
      ∃ s, dlookup (some X) (required_update (required_update [] r1) r2) = some s ∧
        ∀ doc : String, doc ∈ s ↔ doc = B := by
  have hcz : czSearch X.data = none := czSearch_word X.data hXw
  have h1data : (X ++ " require " ++ A ++ ", " ++ B).data =
      X.data ++ (" require ".data ++ (A.data ++ (", ".data ++ B.data))) := by
    simp [strData_append, List.append_assoc]
  have hscan1 : reqScan [] ((X ++ " require " ++ A ++ ", " ++ B).data) =
      some (X.data, false, A.data ++ (", ".data ++ B.data)) := by
    rw [h1data]
    have ht := reqTail_require A.data B.data hAne hAw hBw
    simpa using reqScan_word X.data hXne hXw []
      (" require ".data ++ (A.data ++ (", ".data ++ B.data))) false
      (A.data ++ (", ".data ++ B.data)) ht
  have hsplit : split2 ',' ' ' (A.data ++ (", ".data ++ B.data)) = [A.data, B.data] := by
    rw [show (", ".data ++ B.data : List Char) = ',' :: ' ' :: B.data from rfl,
      split2_comma_word A.data hAw B.data, split2_word_single B.data hBw]
  have hparse1 : required_parse (X ++ " require " ++ A ++ ", " ++ B) =
      .ok ⟨[(some X, [A, B])], false⟩ := by
    simp only [required_parse, hscan1, hcz, hsplit, List.map_cons, List.map_nil,
      replace_space_word hAw, replace_space_word hBw, strMk_data,
      List.foldl_cons, List.foldl_nil, pyInsert,
      merge_categories_single X hXE hXF]
  have h2data : (X ++ " no longer require " ++ A).data =
      X.data ++ (" no longer require ".data ++ A.data) := by
    simp [strData_append, List.append_assoc]
  have hscan2 : reqScan [] ((X ++ " no longer require " ++ A).data) =
      some (X.data, true, A.data) := by
    rw [h2data]
    have ht := reqTail_nolonger A.data hAne hAw
    simpa using reqScan_word X.data hXne hXw []
      (" no longer require ".data ++ A.data) true A.data ht
  have hsplitA : split2 ',' ' ' A.data = [A.data] := split2_word_single A.data hAw
  have hparse2 : required_parse (X ++ " no longer require " ++ A) =
      .ok ⟨[(some X, [A])], true⟩ := by
    simp only [required_parse, hscan2, hcz, hsplitA, List.map_cons, List.map_nil,
      replace_space_word hAw, strMk_data, List.foldl_cons, List.foldl_nil, pyInsert,
      merge_categories_single X hXE hXF]
  have hu1 : required_update [] ⟨[(some X, [A, B])], false⟩ = [(some X, [A, B])] := by
    show [(some X, listUnion [] [A, B])] = [(some X, [A, B])]
    rw [listUnion_nil]
  have hlook : dlookup (some X) [(some X, [A, B])] = some [A, B] := by
    unfold dlookup
    rw [if_pos rfl]
  have hu2 : required_update [(some X, [A, B])] ⟨[(some X, [A])], true⟩ =
      [(some X, listDiff [A, B] [A])] := by
    show ddApply listDiff [(some X, [A, B])] (some X) [A] = _
    unfold ddApply
    rw [hlook]
    show pyInsert (some X) (listDiff [A, B] [A]) [(some X, [A, B])] = _
    unfold pyInsert
    rw [if_pos rfl]
  refine ⟨⟨[(some X, [A, B])], false⟩, ⟨[(some X, [A])], true⟩, hparse1, hparse2,
    listDiff [A, B] [A], ?_, ?_⟩
  · rw [hu1, hu2]
    unfold dlookup
    rw [if_pos rfl]
  · intro doc
    rw [mem_listDiff]
    constructor
    · rintro ⟨h1, h2⟩
      rcases (by simpa using h1 : doc = A ∨ doc = B) with rfl | rfl
      · exact absurd (by simp) h2
      · rfl
    · rintro rfl
      exact ⟨by simp, by simpa using fun h => hAB h.symm⟩

/-- Witness for C7: `Kolechia require passport, ID_card` then
`Kolechia no longer require passport`. -/
theorem c7_require_inverse_witness :
    ∃ r1 r2,
      required_parse ("Kolechia" ++ " require " ++ "passport" ++ ", " ++ "ID_card") = .ok r1 ∧
      required_parse ("Kolechia" ++ " no longer require " ++ "passport") = .ok r2 ∧
      ∃ s, dlookup (some "Kolechia") (required_update (required_update [] r1) r2) = some s ∧
        ∀ doc : String, doc ∈ s ↔ doc = "ID_card" :=
  c7_require_inverse "Kolechia" "passport" "ID_card" (by decide) (by decide) (by decide)
    (by decide) (by decide) (by decide) (by decide) (by decide) (by decide)

/-- A second evaluation of the required-documents judge from the dict the
first one returned yields the same judgement and the same dict: the
defaultdict reads only append missing keys bound to the default empty
set, so repeated reads agree. -/
theorem required_judge_stable {cats cats' : ReqDict} {p : Papers}
    {r : Except InspectError Judgement}
    (h : required_judge cats p = (cats', r)) : required_judge cats' p = (cats', r) := by
  unfold required_judge at h ⊢
  by_cases h1 : (hasKey ASYLUM p && hasKey PASSPORT p) = true
  · rw [if_pos h1] at h ⊢
    injection h with hs hr
    subst hs; subst hr
    rfl
  · rw [if_neg h1] at h ⊢
    by_cases h2 : (hasKey DIPLOMAT p && hasKey PASSPORT p) = true
    · rw [if_pos h2] at h ⊢
      injection h with hs hr
      subst hs; subst hr
      rfl
    · rw [if_neg h2] at h ⊢
      rcases hg : ddGet cats (papers_nation p) with ⟨req0, cats1⟩
      have hl1 : dlookup (papers_nation p) cats1 = some req0 := by
        have hx := @ddGet_snd_lookup cats (papers_nation p)
        rw [hg] at hx
        exact hx
      simp only [hg] at h
      cases hw : papers_worker p with
      | error err =>
        simp only [hw] at h
        injection h with hs hr
        subst hs; subst hr
        simp only [ddGet_of_lookup hl1, hw]
      | ok w =>
        simp only [hw] at h
        cases w with
        | false =>
          simp only [Bool.false_eq_true, if_false] at h
          injection h with hs hr
          subst hs; subst hr
          simp only [ddGet_of_lookup hl1, hw, Bool.false_eq_true, if_false]
        | true =>
          simp only [if_true] at h
          rcases hg2 : ddGet cats1 (some WORKERS) with ⟨wreq, cats2⟩
          simp only [hg2] at h
          injection h with hs hr
          subst hs; subst hr
          have hl1' : dlookup (papers_nation p) cats2 = some req0 := by
            have hx := @ddGet_preserves cats1 (some WORKERS) (papers_nation p) req0 hl1
            rw [hg2] at hx
            exact hx
          have hl2 : dlookup (some WORKERS) cats2 = some wreq := by
            have hx := @ddGet_snd_lookup cats1 (some WORKERS)
            rw [hg2] at hx
            exact hx
          simp only [ddGet_of_lookup hl1', hw, if_true, ddGet_of_lookup hl2]

/-- A second run of the judgement pipeline from the state the first run
returned produces the same message. -/
theorem inspect_papers_stable {s s1 : Inspector} {p : Papers} {m : String}
    (h : inspect_papers s p = (s1, .ok m)) : (inspect_papers s1 p).2 = .ok m := by
  unfold inspect_papers at h ⊢
  by_cases h1 : (wanted_judge s.wantedName p).detain = true
  · rw [if_pos h1] at h
    injection h with hs hm
    subst hs
    rw [if_pos h1]
    exact hm
  · rw [if_neg h1] at h
    by_cases h1d : (wanted_judge s.wantedName p).deny = true
    · rw [if_pos h1d] at h
      injection h with hs hm
      subst hs
      rw [if_neg h1, if_pos h1d]
      exact hm
    · rw [if_neg h1d] at h
      by_cases h2 : (valid_judge p).detain = true
      · rw [if_pos h2] at h
        injection h with hs hm
        subst hs
        rw [if_neg h1, if_neg h1d, if_pos h2]
        exact hm
      · rw [if_neg h2] at h
        by_cases h2d : (valid_judge p).deny = true
        · rw [if_pos h2d] at h
          injection h with hs hm
          subst hs
          rw [if_neg h1, if_neg h1d, if_neg h2, if_pos h2d]
          exact hm
        · rw [if_neg h2d] at h
          rcases hr : required_judge s.reqCategories p with ⟨cats', jr⟩
          simp only [hr] at h
          cases jr with
          | error err => exact absurd (congrArg Prod.snd h) (by simp)
          | ok j3 =>
            simp only at h
            have hwn : ({ s with reqCategories := cats' } : Inspector).wantedName =
              s.wantedName := rfl
            have hwl : ({ s with reqCategories := cats' } : Inspector).whitelist =
              s.whitelist := rfl
            have hrc : ({ s with reqCategories := cats' } : Inspector).reqCategories =
              cats' := rfl
            have hst := required_judge_stable hr
            by_cases h3 : j3.detain = true
            · rw [if_pos h3] at h
              injection h with hs hm
              subst hs
              rw [hwn, if_neg h1, if_neg h1d, if_neg h2, if_neg h2d, hrc]
              simp only [hst, if_pos h3]
              exact hm
            · rw [if_neg h3] at h
              by_cases h3d : j3.deny = true
              · rw [if_pos h3d] at h
                injection h with hs hm
                subst hs
                rw [hwn, if_neg h1, if_neg h1d, if_neg h2, if_neg h2d, hrc]
                simp only [hst, if_neg h3, if_pos h3d]
                exact hm
              · rw [if_neg h3d] at h
                by_cases h4 : (allowed_judge s.whitelist p).detain = true
                · rw [if_pos h4] at h
                  injection h with hs hm
                  subst hs
                  rw [hwn, if_neg h1, if_neg h1d, if_neg h2, if_neg h2d, hrc]
                  simp only [hst, if_neg h3, if_neg h3d]
                  rw [hwl, if_pos h4]
                  exact hm
                · rw [if_neg h4] at h
                  by_cases h4d : (allowed_judge s.whitelist p).deny = true
                  · rw [if_pos h4d] at h
                    injection h with hs hm
                    subst hs
                    rw [hwn, if_neg h1, if_neg h1d, if_neg h2, if_neg h2d, hrc]
                    simp only [hst, if_neg h3, if_neg h3d]
                    rw [hwl, if_neg h4, if_pos h4d]
                    exact hm
                  · rw [if_neg h4d] at h
                    injection h with hs hm
                    subst hs
                    rw [hwn, if_neg h1, if_neg h1d, if_neg h2, if_neg h2d, hrc]
                    simp only [hst, if_neg h3, if_neg h3d]
                    rw [hwl, if_neg h4, if_neg h4d]
                    exact hm

/-- C8: `inspect` is idempotent: if an inspection from some registry state
succeeds with a message, inspecting the same submission again from the
state the first call left behind (the defaultdict reads may have extended
the category dict) returns exactly the same message. -/
theorem c8_inspect_idempotent (s : Inspector) (e : List (String × String))
    (s1 : Inspector) (m : String) (h : inspect s e = (s1, .ok m)) :
    (inspect s1 e).2 = .ok m := by
  unfold inspect at h ⊢
  cases hmk : mkPapers e with
  | error err =>
    rw [hmk] at h
    exact absurd (congrArg Prod.snd h) (by simp)
  | ok p =>
    simp only [hmk] at h ⊢
    exact inspect_papers_stable h

/-- Witness for C8: a second inspection of a bare passport from the mutated
state repeats the first message. -/
theorem c8_inspect_idempotent_witness :
    (inspect (Inspector.mk "" [(none, [])] []) [("passport", "NAME: X")]).2 =
      .ok "Entry denied: citizen of banned nation." :=
  c8_inspect_idempotent initInspector [("passport", "NAME: X")]
    (Inspector.mk "" [(none, [])] []) "Entry denied: citizen of banned nation." rfl

/-- C9: a directive line that matches a recognizer but fails its detailed
extraction surfaces the parse error from `receive_bulletin`, and every
directive from an earlier line of the same bulletin that was already
applied remains applied: the state reached before the failing line is
returned unchanged, not rolled back. -/
theorem c9_no_rollback (s : Inspector) (ls : List String) (l : String) (rest : List String)
    (s1 : Inspector) (e : InspectError) (b : String)
    (hok : processLines s ls = (s1, none)) (herr : applyLine s1 l = .error e)
    (hsplit : pySplitlines b = ls ++ l :: rest) :
    receive_bulletin s b = (s1, some e) ∧
    processLines s (ls ++ l :: rest) = (s1, some e) := by
  have key : ∀ (ls0 : List String) (s0 : Inspector), processLines s0 ls0 = (s1, none) →
      processLines s0 (ls0 ++ l :: rest) = (s1, some e) := by
    intro ls0
    induction ls0 with
    | nil =>
      intro s0 h0
      have h0' : (s0, (none : Option InspectError)) = (s1, none) := h0
      injection h0' with hs _
      subst hs
      rw [List.nil_append]
      unfold processLines
      rw [herr]
    | cons l0 ls0' ih =>
      intro s0 h0
      rw [List.cons_append]
      unfold processLines at h0 ⊢
      cases ha : applyLine s0 l0 with
      | ok s0' =>
        simp only [ha] at h0 ⊢
        exact ih s0' h0
      | error e0 =>
        simp only [ha] at h0
        exact absurd (congrArg Prod.snd h0) (by simp)
  refine ⟨?_, key ls s hok⟩
  unfold receive_bulletin
  rw [hsplit]
  exact key ls s hok

/-- Witness for C9: an allow directive followed by a bare `Wanted` line —
the whitelist keeps Obristan, the wanted line raises. -/
theorem c9_no_rollback_witness :
    receive_bulletin initInspector "Allow citizens of Obristan\nWanted" =
      (Inspector.mk "" [] ["Obristan"], some (.parseError "WantedCriminals" "Wanted")) ∧
    processLines initInspector (["Allow citizens of Obristan"] ++ "Wanted" :: []) =
      (Inspector.mk "" [] ["Obristan"], some (.parseError "WantedCriminals" "Wanted")) :=
  c9_no_rollback initInspector ["Allow citizens of Obristan"] "Wanted" []
    (Inspector.mk "" [] ["Obristan"]) (.parseError "WantedCriminals" "Wanted")
    "Allow citizens of Obristan\nWanted" rfl rfl rfl

/-- If the mismatch scan started with a seen value reports no conflict,
every value carried under the key equals that seen value. -/
theorem scan_key_false_all {key : String} :
    ∀ {p : Papers} {w : String}, scan_key key (some w) p = false →
      ∀ d f v, (d, f) ∈ p → dlookup key f = some v → v = w := by
  intro p
  induction p with
  | nil =>
    intro w _ d f v hmem _
    exact absurd hmem (List.not_mem_nil (d, f))
  | cons x rest ih =>
    rcases x with ⟨dd, ff⟩
    intro w h d f v hmem hlook
    cases hf : dlookup key ff with
    | some v0 =>
      simp only [scan_key, hf] at h
      have hwv : w = v0 := by
        by_cases hne : w = v0
        · exact hne
        · rw [if_pos (by simpa using hne)] at h
          exact absurd h (by simp)
      have h' : scan_key key (some v0) rest = false := by
        rw [if_neg (by simpa using hwv)] at h
        exact h
      rcases List.mem_cons.mp hmem with heq | hmem'
      · have hff : f = ff := congrArg Prod.snd heq
        rw [hff, hf] at hlook
        injection hlook with hv
        rw [← hv, hwv]
      · rw [ih h' d f v hmem' hlook, hwv]
    | none =>
      simp only [scan_key, hf] at h
      rcases List.mem_cons.mp hmem with heq | hmem'
      · have hff : f = ff := congrArg Prod.snd heq
        rw [hff, hf] at hlook
        exact absurd hlook (by simp)
      · exact ih h d f v hmem' hlook

/-- If the mismatch scan for a key reports no conflict, any two values
carried under that key agree. -/
theorem scan_key_false_agree {key : String} :
    ∀ {p : Papers}, scan_key key none p = false →
      ∀ d f v d' f' v', (d, f) ∈ p → dlookup key f = some v →
        (d', f') ∈ p → dlookup key f' = some v' → v = v' := by
  intro p
  induction p with
  | nil =>
    intro _ d f v d' f' v' hmem _ _ _
    exact absurd hmem (List.not_mem_nil (d, f))
  | cons x rest ih =>
    rcases x with ⟨dd, ff⟩
    intro h d f v d' f' v' hmem hlook hmem' hlook'
    cases hf : dlookup key ff with
    | some v0 =>
      simp only [scan_key, hf] at h
      have hv : v = v0 := by
        rcases List.mem_cons.mp hmem with heq | hm
        · have hff : f = ff := congrArg Prod.snd heq
          rw [hff, hf] at hlook
          injection hlook with hx
          exact hx.symm
        · exact scan_key_false_all h d f v hm hlook
      have hv' : v' = v0 := by
        rcases List.mem_cons.mp hmem' with heq | hm
        · have hff : f' = ff := congrArg Prod.snd heq
          rw [hff, hf] at hlook'
          injection hlook' with hx
          exact hx.symm
        · exact scan_key_false_all h d' f' v' hm hlook'
      rw [hv, hv']
    | none =>
      simp only [scan_key, hf] at h
      have hv : (d, f) ∈ rest := by
        rcases List.mem_cons.mp hmem with heq | hm
        · have hff : f = ff := congrArg Prod.snd heq
          rw [hff, hf] at hlook
          exact absurd hlook (by simp)
        · exact hm
      have hv' : (d', f') ∈ rest := by
        rcases List.mem_cons.mp hmem' with heq | hm
        · have hff : f' = ff := congrArg Prod.snd heq
          rw [hff, hf] at hlook'
          exact absurd hlook' (by simp)
        · exact hm
      exact ih h d f v d' f' v' hv hlook hv' hlook'

/-- A conflicting key in the fixed field list makes the mismatch check
report some field. -/
theorem check_go_some (p : Papers) :
    ∀ (l : List (String × String)) (k : String) (fl : String), (k, fl) ∈ l →
      scan_key k none p = true →
      ∃ field, check_mismatches_go p l = some field := by
  intro l
  induction l with
  | nil =>
    intro k fl hmem _
    exact absurd hmem (List.not_mem_nil (k, fl))
  | cons x rest ih =>
    rcases x with ⟨k0, f0⟩
    intro k fl hmem hscan
    by_cases h0 : scan_key k0 none p = true
    · exact ⟨f0, by unfold check_mismatches_go; rw [if_pos h0]⟩
    · have hgo : check_mismatches_go p ((k0, f0) :: rest) = check_mismatches_go p rest := by
        conv_lhs => rw [check_mismatches_go]
        rw [if_neg h0]
      rcases List.mem_cons.mp hmem with heq | hmem'
      · have hk : k = k0 := congrArg Prod.fst heq
        rw [hk] at hscan
        exact absurd hscan h0
      · rcases ih k fl hmem' hscan with ⟨field, hf⟩
        exact ⟨field, by rw [hgo, hf]⟩

/-- C10: two presented documents carrying the same identity key with
different values make the document-validity judge detain — not deny —
with a `<field> mismatch` reason, and `inspect` then produces a
`Detainment: ...` message (through the wanted-criminal rule or the
validity rule, whichever fires first). -/
theorem c10_mismatch_detains (p : Papers) (key d1 d2 : String) (f1 f2 : FieldMap)
    (v1 v2 : String)
    (hkey : key ∈ [BIRTHDAY, NATION, IDNUM, NAME])
    (h1 : (d1, f1) ∈ p) (hl1 : dlookup key f1 = some v1)
    (h2 : (d2, f2) ∈ p) (hl2 : dlookup key f2 = some v2)
    (hne : v1 ≠ v2) :
    ∃ field, check_mismatches p = some field ∧
      valid_judge p = ⟨true, false, field ++ " mismatch"⟩ ∧
      ∀ s : Inspector, ∃ r, (inspect_papers s p).2 = .ok (detain_message r) := by
  have hconflict : scan_key key none p = true := by
    cases hc : scan_key key none p with
    | true => rfl
    | false =>
      exact absurd (scan_key_false_agree hc d1 f1 v1 d2 f2 v2 h1 hl1 h2 hl2) hne
  have hmemf : ∃ fl, (key, fl) ∈ MISMATCH_FIELDS := by
    rcases (by simpa using hkey : key = BIRTHDAY ∨ key = NATION ∨ key = IDNUM ∨ key = NAME)
      with rfl | rfl | rfl | rfl
    · exact ⟨"date of birth", by simp [MISMATCH_FIELDS]⟩
    · exact ⟨"nationality", by simp [MISMATCH_FIELDS]⟩
    · exact ⟨"ID number", by simp [MISMATCH_FIELDS]⟩
    · exact ⟨"name", by simp [MISMATCH_FIELDS]⟩
  rcases hmemf with ⟨fl, hfl⟩
  rcases check_go_some p MISMATCH_FIELDS key fl hfl hconflict with ⟨field, hfield⟩
  have hcm : check_mismatches p = some field := hfield
  have hvj : valid_judge p = ⟨true, false, field ++ " mismatch"⟩ := by
    unfold valid_judge
    rw [hcm]
  refine ⟨field, hcm, hvj, ?_⟩
  intro s
  unfold inspect_papers
  by_cases hw : (wanted_judge s.wantedName p).detain = true
  · rw [if_pos hw]
    exact ⟨(wanted_judge s.wantedName p).reason, rfl⟩
  · rw [if_neg hw]
    have hwd : (wanted_judge s.wantedName p).deny = false := by
      unfold wanted_judge
      split <;> rfl
    rw [if_neg (by simp [hwd])]
    rw [hvj]
    have hdt : (Judgement.mk true false (field ++ " mismatch")).detain = true := rfl
    rw [if_pos hdt]
    exact ⟨field ++ " mismatch", rfl⟩

/-- Witness for C10: passport and ID card disagreeing on the nationality. -/
theorem c10_mismatch_detains_witness :
    (∃ field, check_mismatches
        [("passport", [("NATION", "Impor")]), ("ID_card", [("NATION", "Kolechia")])] =
          some field ∧
      valid_judge [("passport", [("NATION", "Impor")]), ("ID_card", [("NATION", "Kolechia")])] =
        ⟨true, false, field ++ " mismatch"⟩) ∧
    ∃ r, (inspect_papers initInspector
        [("passport", [("NATION", "Impor")]), ("ID_card", [("NATION", "Kolechia")])]).2 =
      .ok (detain_message r) := by
  rcases c10_mismatch_detains
      [("passport", [("NATION", "Impor")]), ("ID_card", [("NATION", "Kolechia")])]
      NATION "passport" "ID_card" [("NATION", "Impor")] [("NATION", "Kolechia")]
      "Impor" "Kolechia" (by decide) (by decide) (by decide) (by decide) (by decide)
      (by decide) with ⟨field, ha, hb, hc⟩
  exact ⟨⟨field, ha, hb⟩, hc initInspector⟩

end PapersPlease
